import Mathlib

/-!
Verification of the fabrix core against its specification.

The development shallowly embeds the code of `src/core/row.rs`,
`src/sources/sql/sql_builder/sql_adt.rs` and
`src/sources/sql/sql_executor/executor.rs`.  The columnar store
(Series / DataFrame primitives), the SQL text renderer and the database
backend live outside the provided sources; those collaborators are
modelled from the specification and are marked `Modelled from the spec:`
in their doc comments.
-/

namespace Fabrix

/-- Modelled from the spec: the scalar `Value` tagged union (§3).  The
concrete enum lives in the core value module, outside the provided
sources.  Arms are restricted to the ones exercised by the embedded
operations; float arms are omitted (no claim depends on them). -/
inductive Value where
  | Null
  | Bool (b : Bool)
  | I32 (i : Int)
  | I64 (i : Int)
  | U64 (n : Nat)
  | Str (s : String)
  deriving DecidableEq, Repr

/-- Modelled from the spec: the `ValueType` kind enum matching the arms of
`Value`. -/
inductive ValueType where
  | Null
  | Bool
  | I32
  | I64
  | U64
  | String
  deriving DecidableEq, Repr

/-- Modelled from the spec: the kind of a concrete scalar value. -/
def ValueType.ofValue : Value → ValueType
  | .Null => .Null
  | .Bool _ => .Bool
  | .I32 _ => .I32
  | .I64 _ => .I64
  | .U64 _ => .U64
  | .Str _ => .String

/-- Core error taxonomy (§7) for the transposer layer. -/
inductive CoreError where
  | Empty
  | OutOfBounds (idx len : Nat)
  | IndexNotFound (v : Value)
  | Common (msg : String)
  deriving DecidableEq, Repr

/-- Embedded from `row.rs`: `CoreError::new_empty_error()`. -/
def CoreError.new_empty_error : CoreError := .Empty

/-- Embedded from `row.rs`: `oob_err(idx, len)`. -/
def oob_err (idx len : Nat) : CoreError := .OutOfBounds idx len

/-- Embedded from `row.rs`: `inf_err(index)` (index not found). -/
def inf_err (v : Value) : CoreError := .IndexNotFound v

/-- Embedded from `row.rs`: a `Row` is an identity value plus an ordered
sequence of values. -/
structure Row where
  index : Value
  data : List Value
  deriving DecidableEq, Repr

/-- Embedded from `row.rs`: `Row::new`. -/
def Row.new (index : Value) (data : List Value) : Row := ⟨index, data⟩

/-- Embedded from `row.rs`: `Row::from_values` — no identity, the index
defaults to `Value::Null`. -/
def Row.from_values (data : List Value) : Row := ⟨Value.Null, data⟩

/-- Embedded from `row.rs`: `Row::len`. -/
def Row.len (r : Row) : Nat := r.data.length

/-- Modelled from the spec: a typed column of the columnar store (§6),
reduced to its name and value sequence.  Static dtype bookkeeping of the
store is not modelled; `Series.dtype` recovers a kind by inference. -/
structure Series where
  name : String
  values : List Value
  deriving DecidableEq, Repr

/-- Modelled from the spec: `Series::from_values(values, name, nullable)`.
The store's type inference is not a source file; construction is modelled
as succeeding and preserving the value sequence verbatim. -/
def Series.from_values (values : List Value) (name : String) (_nullable : Bool) :
    Except CoreError Series :=
  .ok ⟨name, values⟩

/-- Modelled from the spec: `Series::from_values_default_name`. -/
def Series.from_values_default_name (values : List Value) (_nullable : Bool) :
    Except CoreError Series :=
  .ok ⟨"index", values⟩

/-- Modelled from the spec: positional get of the store, fallible
(`self.index.get(idx)?` in `row.rs`). -/
def Series.get (s : Series) (idx : Nat) : Except CoreError Value :=
  if h : idx < s.values.length then .ok s.values[idx]
  else .error (oob_err idx s.values.length)

/-- Modelled from the spec: infallible positional read used for the data
columns of `get_row_by_idx` (`s.get(idx).into()`); out of range yields a
null scalar, which never happens under the height invariant. -/
def Series.getValue (s : Series) (idx : Nat) : Value :=
  s.values.getD idx Value.Null

/-- Modelled from the spec: identity-value lookup returning a position or
none (§6). -/
def Series.find_index (s : Series) (v : Value) : Option Nat :=
  s.values.findIdx? (fun x => x = v)

/-- Modelled from the spec: dtype inference of a column — the kind of its
first non-null value, `Null` for an all-null or empty column. -/
def Series.dtype (s : Series) : ValueType :=
  ValueType.ofValue ((s.values.find? (fun v => v != Value.Null)).getD Value.Null)

/-- Modelled from the spec: the columnar table — uniquely named typed
columns plus one index column (§3). -/
structure DataFrame where
  data : List Series
  index : Series
  deriving DecidableEq, Repr

/-- Modelled from the spec: table height; the invariant of §3 states that
the index length equals the height and every column's length equals the
height. -/
def DataFrame.height (df : DataFrame) : Nat := df.index.values.length

/-- Modelled from the spec: table width (number of data columns). -/
def DataFrame.width (df : DataFrame) : Nat := df.data.length

/-- Height invariant of §3: every data column is as long as the index. -/
def DataFrame.ColsMatchHeight (df : DataFrame) : Prop :=
  ∀ s ∈ df.data, s.values.length = df.height

/-- Modelled from the spec: `DataFrame::from_series(series, index)`. -/
def DataFrame.from_series (series : List Series) (index : Series) :
    Except CoreError DataFrame :=
  .ok ⟨series, index⟩

/-- Modelled from the spec: the dense sequential default index values
`0, 1, 2, …` (§4.1). -/
def defaultIndexValues (m : Nat) : List Value :=
  (List.range m).map (fun i => Value.U64 i)

/-- Modelled from the spec: `DataFrame::from_series_default_index` — the
index defaults to the dense sequence as long as the first column. -/
def DataFrame.from_series_default_index (series : List Series) :
    Except CoreError DataFrame :=
  .ok ⟨series, ⟨"index", defaultIndexValues ((series.headD ⟨"", []⟩).values.length)⟩⟩

/-- Embedded from `row.rs`: the positional placeholder column name
`format!("Column_{:?}", j)`. -/
def colName (j : Nat) : String := "Column_" ++ toString j

/-- Helper mirroring the source's result-propagating loops (`?` inside a
`for`): collect a list of fallible results, stopping at the first error. -/
def collectExcept {ε α β : Type} (f : α → Except ε β) : List α → Except ε (List β)
  | [] => .ok []
  | a :: t => do
      let b ← f a
      let rest ← collectExcept f t
      .ok (b :: rest)

/-- Embedded from `row.rs` lines 85-107: `DataFrame::from_rows`.  Fails on
empty input; the width is the first row's length; column `j` is built from
position `j` of every row (the source moves `r.data[j]` out, panicking on
a shorter row — the theorems therefore carry the equal-length hypothesis
and the embedding reads out of range as null); the index column is the
ordered sequence of row identities. -/
def DataFrame.from_rows (rows : List Row) : Except CoreError DataFrame :=
  match rows with
  | [] => .error CoreError.new_empty_error
  | r0 :: _ => do
      let series ← collectExcept
        (fun j => Series.from_values (rows.map (fun r => r.data.getD j Value.Null)) (colName j) true)
        (List.range r0.data.length)
      let index ← Series.from_values_default_name (rows.map (fun r => r.index)) true
      DataFrame.from_series series index

/-- Embedded from `row.rs` lines 113-159: `DataFrame::from_row_values_iter`.
Fails on an empty sequence; the width is the first element's length; an
explicit `index_col` outside the observed width is ignored and the default
sequential index is used; otherwise the chosen column is removed and
becomes the index, the rest renumbered as data columns. -/
def DataFrame.from_row_values_iter (values : List (List Value)) (index_col : Option Nat) :
    Except CoreError DataFrame :=
  match values with
  | [] => .error CoreError.new_empty_error
  | v0 :: _ =>
      let n := v0.length
      let transposed : List (List Value) :=
        (List.range n).map (fun j => values.map (fun row => row.getD j Value.Null))
      let index_series : Option (Except CoreError Series) :=
        index_col.bind (fun i =>
          if n ≤ i then none
          else some (Series.from_values (transposed.getD i []) "index" true))
      let rest : List (List Value) :=
        match index_col with
        | some i => if n ≤ i then transposed else transposed.eraseIdx i
        | none => transposed
      do
        let series ← collectExcept
          (fun p => Series.from_values p.2 (colName p.1) true)
          rest.enum
        match index_series with
        | some s => do
            let s ← s
            DataFrame.from_series series s
        | none => DataFrame.from_series_default_index series

/-- Embedded from `row.rs`: `DataFrame::from_row_values`. -/
def DataFrame.from_row_values (values : List (List Value)) (index_col : Option Nat) :
    Except CoreError DataFrame :=
  DataFrame.from_row_values_iter values index_col

/-- Embedded from `row.rs` lines 169-186: `DataFrame::get_row_by_idx`. -/
def DataFrame.get_row_by_idx (df : DataFrame) (idx : Nat) : Except CoreError Row :=
  let len := df.height
  if len ≤ idx then .error (oob_err idx len)
  else do
    let index ← df.index.get idx
    .ok ⟨index, df.data.map (fun s => s.getValue idx)⟩

/-- Embedded from `row.rs` lines 189-193: `DataFrame::get_row`. -/
def DataFrame.get_row (df : DataFrame) (index : Value) : Except CoreError Row :=
  match df.index.find_index index with
  | none => .error (inf_err index)
  | some i => df.get_row_by_idx i

/-- Modelled from the spec: column renaming of the store
(`set_column_names`); fails when the name count does not match the width. -/
def DataFrame.set_column_names (df : DataFrame) (names : List String) :
    Except CoreError DataFrame :=
  if names.length = df.data.length then
    .ok { df with data := List.zipWith (fun s n => Series.mk n s.values) df.data names }
  else .error (.Common "column names length mismatch")

/-- Modelled from the spec: `get_column_names`. -/
def DataFrame.get_column_names (df : DataFrame) : List String :=
  df.data.map (fun s => s.name)

/-- Modelled from the spec: vertical concatenation of two tables (§6);
requires the same column names, appends column values and index values. -/
def DataFrame.vconcat (df other : DataFrame) : Except CoreError DataFrame :=
  if df.get_column_names = other.get_column_names then
    .ok ⟨List.zipWith (fun a b => Series.mk a.name (a.values ++ b.values)) df.data other.data,
         ⟨df.index.name, df.index.values ++ other.index.values⟩⟩
  else .error (.Common "vconcat schema mismatch")

/-- Modelled from the spec: slicing by range (§6); polars semantics
`slice(offset, length)` — take `length` rows starting at `offset`,
clipped to the table. -/
def DataFrame.slice (df : DataFrame) (offset length : Nat) : DataFrame :=
  ⟨df.data.map (fun s => Series.mk s.name ((s.values.drop offset).take length)),
   ⟨df.index.name, (df.index.values.drop offset).take length⟩⟩

/-- Embedded from `row.rs` lines 196-200: `DataFrame::append` — build a
one-row table via `from_rows`, align its column names, vconcat. -/
def DataFrame.append (df : DataFrame) (row : Row) : Except CoreError DataFrame := do
  let d ← DataFrame.from_rows [row]
  let d ← d.set_column_names df.get_column_names
  df.vconcat d

/-- Embedded from `row.rs` lines 203-212: `DataFrame::insert_row_by_idx`
— three-way splice through two slices, `append` and `vconcat`. -/
def DataFrame.insert_row_by_idx (df : DataFrame) (idx : Nat) (row : Row) :
    Except CoreError DataFrame := do
  let len := df.height
  let d1 := df.slice 0 idx
  let d2 := df.slice idx len
  let d1 ← d1.append row
  d1.vconcat d2

/-- Embedded from `row.rs` lines 215-220: `DataFrame::insert_row`. -/
def DataFrame.insert_row (df : DataFrame) (index : Value) (row : Row) :
    Except CoreError DataFrame :=
  match df.index.find_index index with
  | some idx => df.insert_row_by_idx idx row
  | none => .error (inf_err index)

/-- Embedded from `row.rs` lines 272-290: the cursor mechanics of
`DataFrameIntoIterator::next` — one step per column plus the index cursor
in lockstep, bounded by a counter initialised to the height.  The
`next().unwrap()` on an exhausted column cursor is embedded as a null
read, which never happens under the height invariant. -/
def materialize : Nat → List Value → List (List Value) → List Row
  | 0, _, _ => []
  | n + 1, idx, cols =>
      ⟨idx.headD Value.Null, cols.map (fun c => c.headD Value.Null)⟩ ::
        materialize n idx.tail (cols.map List.tail)

/-- Embedded from `row.rs` lines 245-290: consuming the table through the
owning row iterator (`IntoIterator for DataFrame`), collected to a list. -/
def DataFrame.toRows (df : DataFrame) : List Row :=
  materialize df.height df.index.values (df.data.map (fun s => s.values))

/-- Embedded from `sql_adt.rs` lines 249-253: the AND/OR connective. -/
inductive Conjunction where
  | AND
  | OR
  deriving DecidableEq, Repr

/-- Embedded from `sql_adt.rs` lines 255-267: the comparator of a leaf
predicate. -/
inductive Equation where
  | Not
  | Equal (v : Value)
  | NotEqual (v : Value)
  | Greater (v : Value)
  | GreaterEqual (v : Value)
  | Less (v : Value)
  | LessEqual (v : Value)
  | In (vs : List Value)
  | Between (lo hi : Value)
  | Like (pattern : String)
  deriving DecidableEq, Repr

/-- Embedded from `sql_adt.rs` lines 269-273: a leaf predicate. -/
structure Condition where
  column : String
  equation : Equation
  deriving DecidableEq, Repr

/-- Embedded from `sql_adt.rs` lines 275-281: a filter-tree node — a
connective, a simple condition, or a nested sub-sequence. -/
inductive Expression where
  | Conjunction (c : Conjunction)
  | Simple (c : Condition)
  | Nest (es : List Expression)

/-- Embedded from `sql_adt.rs` line 302: the immutable node sequence
`Expressions(Vec<Expression>)`. -/
structure Expressions where
  exprs : List Expression

/-- Embedded from `sql_adt.rs` lines 310-312: the builder state reached
right after appending an AND/OR connective. -/
structure ConjunctionState where
  stack : List Expression

/-- Embedded from `sql_adt.rs` lines 315-317: the builder state reached
right after appending a simple condition. -/
structure SimpleState where
  stack : List Expression

/-- Embedded from `sql_adt.rs` lines 320-322: the builder state reached
right after appending a nested group. -/
structure NestState where
  stack : List Expression

/-- Embedded from `sql_adt.rs` lines 346-355: the
`ExpressionTransit<Conjunction, ConjunctionState>` impl for `SimpleState`,
`append` part. -/
def SimpleState.append (s : SimpleState) (state : Conjunction) : ConjunctionState :=
  ⟨s.stack ++ [Expression.Conjunction state]⟩

/-- Embedded from `sql_adt.rs` lines 352-354: `finish` of the
`SimpleState` impl — unwraps the accumulated stack. -/
def SimpleState.finish (s : SimpleState) : Expressions :=
  ⟨s.stack⟩

/-- Embedded from `sql_adt.rs` lines 358-367: the
`ExpressionTransit<Conjunction, ConjunctionState>` impl for `NestState`,
`append` part. -/
def NestState.append (s : NestState) (state : Conjunction) : ConjunctionState :=
  ⟨s.stack ++ [Expression.Conjunction state]⟩

/-- Embedded from `sql_adt.rs` lines 364-366: `finish` of the `NestState`
impl. -/
def NestState.finish (s : NestState) : Expressions :=
  ⟨s.stack⟩

/-- Embedded from `sql_adt.rs` lines 370-379: `append` of the
`ExpressionTransit<Condition, SimpleState>` impl for `ConjunctionState`. -/
def ConjunctionState.append_cond (s : ConjunctionState) (state : Condition) : SimpleState :=
  ⟨s.stack ++ [Expression.Simple state]⟩

/-- Embedded from `sql_adt.rs` lines 382-391: `append` of the
`ExpressionTransit<Expressions, NestState>` impl for `ConjunctionState`. -/
def ConjunctionState.append_nest (s : ConjunctionState) (state : Expressions) : NestState :=
  ⟨s.stack ++ [Expression.Nest state.exprs]⟩

/-- Embedded from `sql_adt.rs` lines 376-378 and 388-390: `finish` as
defined by BOTH `ExpressionTransit` impls for `ConjunctionState`; the two
trait impls give it the same body `Expressions(self.stack)`, so it is
embedded once.  It is callable in Rust through fully qualified trait
syntax. -/
def ConjunctionState.finish (s : ConjunctionState) : Expressions :=
  ⟨s.stack⟩

/-- Embedded from `sql_adt.rs` lines 401-403:
`ExpressionsBuilder::from_condition` (via `From<Condition> for
SimpleState`, lines 324-330). -/
def ExpressionsBuilder.from_condition (value : Condition) : SimpleState :=
  ⟨[Expression.Simple value]⟩

/-- Embedded from `sql_adt.rs` lines 405-407:
`ExpressionsBuilder::from_expressions` (via `From<Expressions> for
NestState`, lines 332-336). -/
def ExpressionsBuilder.from_expressions (value : Expressions) : NestState :=
  ⟨value.exprs⟩

/-- Test on a node sequence: does it end on a dangling connective? -/
def lastIsConj (l : List Expression) : Bool :=
  match l.getLast? with
  | some (Expression.Conjunction _) => true
  | _ => false

/-- Reachability of a builder stack through the permitted builder API
calls.  The flag is `true` for the leaf states (`SimpleState` /
`NestState`, where `append(Conjunction)` is next) and `false` for
`ConjunctionState` (where `append(Condition)` or `append(Expressions)` is
next).  Construction starts from a bare condition or from a pre-built
well-formed `Expressions` (one not ending on a connective). -/
inductive BuilderReach : List Expression → Bool → Prop where
  | start_cond (c : Condition) :
      BuilderReach (ExpressionsBuilder.from_condition c).stack true
  | start_exprs (e : Expressions) (h : lastIsConj e.exprs = false) :
      BuilderReach (ExpressionsBuilder.from_expressions e).stack true
  | conj_of_simple (s : List Expression) (c : Conjunction) :
      BuilderReach s true → BuilderReach ((SimpleState.mk s).append c).stack false
  | conj_of_nest (s : List Expression) (c : Conjunction) :
      BuilderReach s true → BuilderReach ((NestState.mk s).append c).stack false
  | cond_of_conj (s : List Expression) (c : Condition) :
      BuilderReach s false → BuilderReach ((ConjunctionState.mk s).append_cond c).stack true
  | nest_of_conj (s : List Expression) (e : Expressions) :
      BuilderReach s false → BuilderReach ((ConjunctionState.mk s).append_nest e).stack true

/-- Embedded from `sql_adt.rs` lines 547-555: the save strategy enum. -/
inductive SaveStrategy where
  | FailIfExists
  | Replace
  | Append
  | Upsert
  deriving DecidableEq, Repr

/-- Embedded from `sql_adt.rs` lines 562-567: the index column type. -/
inductive IndexType where
  | Int
  | BigInt
  | Uuid
  deriving DecidableEq, Repr

/-- Modelled from the spec: `FieldInfo` — a column name plus its dtype
(the concrete struct lives in the core value module, outside the provided
sources). -/
structure FieldInfo where
  name : String
  dtype : ValueType
  deriving DecidableEq, Repr

/-- Embedded from `sql_adt.rs` lines 589-593: the index option used by
`create_table` and `update`. -/
structure IndexOption where
  name : String
  index_type : IndexType
  deriving DecidableEq, Repr

/-- Sql error taxonomy; the executor constructs every error through
`SqlError::new_common_error`. -/
inductive SqlError where
  | common (msg : String)
  deriving DecidableEq, Repr

/-- Embedded from the executor sources: `SqlError::new_common_error`. -/
def SqlError.new_common_error (msg : String) : SqlError := .common msg

/-- Embedded from `sql_adt.rs` lines 642-670: `TryFrom<FieldInfo> for
IndexOption`, restricted to the modelled `ValueType` arms (the omitted
unsigned/short/float arms do not occur in any claim): `I32` maps to `Int`,
`I64` and `U64` to `BigInt`, everything else fails. -/
def IndexOption.try_from (value : FieldInfo) : Except SqlError IndexOption :=
  match value.dtype with
  | .I32 => .ok ⟨value.name, IndexType.Int⟩
  | .I64 => .ok ⟨value.name, IndexType.BigInt⟩
  | .U64 => .ok ⟨value.name, IndexType.BigInt⟩
  | _ => .error (SqlError.new_common_error "cannot convert to index type")

/-- Embedded from `sql_adt.rs` lines 15-20: the introspected table
schema triple. -/
structure TableSchema where
  name : String
  dtype : ValueType
  is_nullable : Bool
  deriving DecidableEq, Repr

/-- Modelled from the spec: the index field of a table (`data.index_field()`
in the executor; the accessor itself lives in the core module). -/
def DataFrame.index_field (df : DataFrame) : FieldInfo :=
  ⟨df.index.name, df.index.dtype⟩

/-- Modelled from the spec: the row-major reading of a table used when the
builder renders INSERT/UPDATE statements — each row is its identity value
plus its data values. -/
def dfRows (df : DataFrame) : List (Value × List Value) :=
  df.toRows.map (fun r => (r.index, r.data))

/-- Modelled from the spec: `popup_rows` — the row-extraction primitive of
the core table (§4.4) that removes the rows whose identity is in the given
value set and returns them separately; the first component keeps the
non-matching rows, the second holds the extracted ones. -/
def DataFrame.popup_rows (df : DataFrame) (ids : List Value) : DataFrame × DataFrame :=
  let keepMask : List Bool := df.index.values.map (fun v => !(ids.contains v))
  let keepVals : List Value → List Value := fun vals =>
    (vals.zip keepMask).filterMap (fun p => if p.2 then some p.1 else none)
  let popVals : List Value → List Value := fun vals =>
    (vals.zip keepMask).filterMap (fun p => if p.2 then none else some p.1)
  (⟨df.data.map (fun s => ⟨s.name, keepVals s.values⟩),
    ⟨df.index.name, df.index.values.filter (fun v => !(ids.contains v))⟩⟩,
   ⟨df.data.map (fun s => ⟨s.name, popVals s.values⟩),
    ⟨df.index.name, df.index.values.filter (fun v => ids.contains v)⟩⟩)

/-- Modelled from the spec: the database visible through the connection
provider — named tables, each a sequence of rows keyed by the identity
value of the single-column primary key. -/
abbrev DB : Type := List (String × List (Value × List Value))

/-- Modelled from the spec: `check_table_exists` probed through
`fetch_optional` — one row when the table exists, none otherwise. -/
def tableExists (db : DB) (table : String) : Bool :=
  (db.lookup table).isSome

/-- Modelled from the spec: the abstract mutating statements handed to the
dialect query builder (`sql_builder` renderings are outside the provided
sources, so statements stay abstract rather than SQL text). -/
inductive Stmt where
  | createTable (table : String)
  | insertData (table : String) (rows : List (Value × List Value))
  | insertDataAuto (table : String) (rows : List (List Value))
  | updateData (table : String) (rows : List (Value × List Value))
  | deleteTable (table : String)
  deriving DecidableEq, Repr

/-- Modelled from the spec: append rows to a named table. -/
def DB.insertInto (db : DB) (table : String) (rows : List (Value × List Value)) : DB :=
  db.map (fun p => if p.1 = table then (p.1, p.2 ++ rows) else p)

/-- Modelled from the spec: one row-keyed UPDATE — replace the data of the
row carrying the given identity; reports one affected row when the
identity is present, zero otherwise. -/
def updateOne (tbl : List (Value × List Value)) (row : Value × List Value) :
    List (Value × List Value) × Nat :=
  (tbl.map (fun q => if q.1 = row.1 then (q.1, row.2) else q),
   if tbl.any (fun q => q.1 = row.1) then 1 else 0)

/-- Modelled from the spec: the sequential batch of row-keyed UPDATE
statements (`execute_many`), summing the affected-row counts. -/
def updateMany (tbl : List (Value × List Value)) (rows : List (Value × List Value)) :
    List (Value × List Value) × Nat :=
  rows.foldl (fun acc row =>
    let r := updateOne acc.1 row
    (r.1, acc.2 + r.2)) (tbl, 0)

/-- Modelled from the spec: the backend executing one mutating statement
(§6 `execute`): CREATE fails on an existing table and affects no row;
INSERT fails on a missing table and affects one row per inserted row; the
primary-key-ignoring INSERT lets the server generate dense identities;
UPDATE fails on a missing table and affects one row per matched identity;
DROP removes the table. -/
def dbExec (stmt : Stmt) (db : DB) : Except SqlError (DB × Nat) :=
  match stmt with
  | .createTable t =>
      if tableExists db t then .error (SqlError.new_common_error "table exists")
      else .ok (db ++ [(t, [])], 0)
  | .insertData t rows =>
      if tableExists db t then .ok (db.insertInto t rows, rows.length)
      else .error (SqlError.new_common_error "no such table")
  | .insertDataAuto t rows =>
      if tableExists db t then
        .ok (db.map (fun p =>
          if p.1 = t then
            (p.1, p.2 ++ rows.enum.map (fun q => (Value.U64 (p.2.length + q.1), q.2)))
          else p), rows.length)
      else .error (SqlError.new_common_error "no such table")
  | .updateData t rows =>
      match db.lookup t with
      | none => .error (SqlError.new_common_error "no such table")
      | some tbl =>
          let r := updateMany tbl rows
          .ok (db.map (fun p => if p.1 = t then (p.1, r.1) else p), r.2)
  | .deleteTable t => .ok (db.filter (fun p => p.1 != t), 0)

/-- Embedded from `executor.rs` lines 326-331: `try_value_into_string`. -/
def try_value_into_string (value : Value) : Except SqlError String :=
  match value with
  | .Str v => .ok v
  | _ => .error (SqlError.new_common_error "value is not a string")

/-- Embedded from `executor.rs` lines 117-149: the cell-decoding mapping
of `get_table_schema` applied to the fetched `(column, type, nullable)`
triples.  The type-string parser `string_try_into_value_type` lives in
`sql_executor/types.rs`, outside the provided sources, so it is passed in
abstractly; the fetch itself (`fetch_all_with_schema`) is represented by
the triple list. -/
def decodeSchemaRow (string_try_into_value_type : String → Option ValueType)
    (v : Value × Value × Value) : Except SqlError TableSchema := do
  let type_str := (← try_value_into_string v.2.1).toUpper
  let dtype := (string_try_into_value_type type_str).getD ValueType.Null
  let is_nullable := (← try_value_into_string v.2.2) == "YES"
  let name ← try_value_into_string v.1
  Except.ok (TableSchema.mk name dtype is_nullable)

/-- Embedded from `executor.rs` lines 117-149, outer loop: decode every
fetched triple, propagating the first error. -/
def SqlExecutor.get_table_schema
    (string_try_into_value_type : String → Option ValueType)
    (rows : List (Value × Value × Value)) : Except SqlError (List TableSchema) :=
  collectExcept (decodeSchemaRow string_try_into_value_type) rows

/-- Embedded from `executor.rs` lines 151-166: `get_existing_ids` — one
`select_existing_ids` query, `SELECT <index> FROM <table> WHERE <index> IN
(...)`, returning the stored identities that occur in the given series. -/
def SqlExecutor.get_existing_ids (db : DB) (table : String) (ids : Series) :
    Except SqlError (List Value) :=
  match db.lookup table with
  | none => .error (SqlError.new_common_error "no such table")
  | some tbl => .ok ((tbl.map (fun p => p.1)).filter (fun v => ids.values.contains v))

/-- Embedded from `executor.rs` lines 193-199: `SqlExecutor::insert` —
render one INSERT with the primary key kept and execute it. -/
def SqlExecutor.insert (db : DB) (table : String) (data : DataFrame) :
    Except SqlError (DB × Nat) :=
  dbExec (Stmt.insertData table (dfRows data)) db

/-- Embedded from `executor.rs` lines 201-216: `SqlExecutor::update` —
derive the index option from the data's index field (failing when the
index type has no mapping), then execute the batch of row-keyed UPDATEs. -/
def SqlExecutor.update (db : DB) (table : String) (data : DataFrame) :
    Except SqlError (DB × Nat) := do
  let _index_option ← IndexOption.try_from data.index_field
  dbExec (Stmt.updateData table (dfRows data)) db

/-- Transaction operations as observed on the wire: statement execution,
commit, rollback. -/
inductive TxnOp where
  | exec (s : Stmt)
  | commit
  | rollback
  deriving DecidableEq, Repr

/-- Embedded from `executor.rs` lines 334-376: `create_and_insert` — the
transactional create-then-insert sequence shared by the FailIfExists and
Replace strategies, abstracted over the transaction's statement executor
(state type `σ` carries the executor's state; the concrete instance is
the modelled database).  Returns the result together with the ordered
transaction operations that were issued: the index-option derivation can
fail before anything is executed; a create failure propagates with no
rollback; an insert failure triggers an explicit rollback before the
error propagates; otherwise the transaction commits and the summed
affected counts are returned.  Commit and rollback are modelled as
succeeding (their own failure modes are not specified). -/
def create_and_insert {σ : Type} (exec : Stmt → σ → Except SqlError (σ × Nat))
    (s0 : σ) (table : String) (data : DataFrame) :
    Except SqlError (σ × Nat) × List TxnOp :=
  match IndexOption.try_from data.index_field with
  | .error e => (.error e, [])
  | .ok _index_option =>
      let create_str := Stmt.createTable table
      match exec create_str s0 with
      | .error e => (.error e, [TxnOp.exec create_str])
      | .ok (s1, n1) =>
          let insert_str := Stmt.insertData table (dfRows data)
          match exec insert_str s1 with
          | .error e => (.error e, [TxnOp.exec create_str, TxnOp.exec insert_str, TxnOp.rollback])
          | .ok (s2, n2) =>
              (.ok (s2, n1 + n2), [TxnOp.exec create_str, TxnOp.exec insert_str, TxnOp.commit])

/-- Operations issued by `save`, in order: the existence probe
(`fetch_optional` of `check_table_exists`), the `select_existing_ids`
fetch, a transaction begin, an in-transaction operation, or a direct
statement execution. -/
inductive SaveOp where
  | probe (table : String)
  | fetchIds (table : String)
  | beginTxn
  | txn (op : TxnOp)
  | stmt (s : Stmt)
  deriving DecidableEq, Repr

/-- Embedded from `executor.rs` lines 218-283: `SqlExecutor::save`,
returning the result together with the ordered operations issued against
the backend.  FailIfExists probes first and fails before any transaction
when the table exists; Replace begins the transaction, probes, drops an
existing table inside the transaction and proceeds to create-and-insert;
Append executes one primary-key-ignoring INSERT; Upsert fetches the
existing identities, splits the input with `popup_rows`, inserts the new
partition and updates the existing one (`self.update` is inlined so the
executed statements can be recorded), returning the summed counts. -/
def SqlExecutor.save (db : DB) (table : String) (data : DataFrame)
    (strategy : SaveStrategy) : Except SqlError (DB × Nat) × List SaveOp :=
  match strategy with
  | .FailIfExists =>
      if tableExists db table then
        (.error (SqlError.new_common_error "table already exist, table cannot be saved"),
         [SaveOp.probe table])
      else
        let r := create_and_insert dbExec db table data
        (r.1, SaveOp.probe table :: SaveOp.beginTxn :: r.2.map SaveOp.txn)
  | .Replace =>
      let pre := [SaveOp.beginTxn, SaveOp.probe table]
      if tableExists db table then
        match dbExec (Stmt.deleteTable table) db with
        | .error e => (.error e, pre ++ [SaveOp.txn (TxnOp.exec (Stmt.deleteTable table))])
        | .ok (db1, _) =>
            let r := create_and_insert dbExec db1 table data
            (r.1, pre ++ SaveOp.txn (TxnOp.exec (Stmt.deleteTable table)) :: r.2.map SaveOp.txn)
      else
        let r := create_and_insert dbExec db table data
        (r.1, pre ++ r.2.map SaveOp.txn)
  | .Append =>
      let que := Stmt.insertDataAuto table (data.toRows.map (fun r => r.data))
      match dbExec que db with
      | .error e => (.error e, [SaveOp.stmt que])
      | .ok (db1, n) => (.ok (db1, n), [SaveOp.stmt que])
  | .Upsert =>
      match SqlExecutor.get_existing_ids db table data.index with
      | .error e => (.error e, [SaveOp.fetchIds table])
      | .ok existing_ids =>
          let p := data.popup_rows existing_ids
          let insert_que := Stmt.insertData table (dfRows p.1)
          match dbExec insert_que db with
          | .error e => (.error e, [SaveOp.fetchIds table, SaveOp.stmt insert_que])
          | .ok (db1, r1) =>
              match IndexOption.try_from p.2.index_field with
              | .error e => (.error e, [SaveOp.fetchIds table, SaveOp.stmt insert_que])
              | .ok _ =>
                  let update_que := Stmt.updateData table (dfRows p.2)
                  match dbExec update_que db1 with
                  | .error e =>
                      (.error e,
                       [SaveOp.fetchIds table, SaveOp.stmt insert_que, SaveOp.stmt update_que])
                  | .ok (db2, r2) =>
                      (.ok (db2, r1 + r2),
                       [SaveOp.fetchIds table, SaveOp.stmt insert_que, SaveOp.stmt update_que])

/-! ## General lemmas about the embedded operations -/

/-- Binding a successful `Except` computes the continuation. -/
theorem ok_bind {ε α β : Type} (a : α) (f : α → Except ε β) :
    (Except.ok a : Except ε α) >>= f = f a := rfl

/-- Binding a failed `Except` keeps the error. -/
theorem error_bind {ε α β : Type} (e : ε) (f : α → Except ε β) :
    (Except.error e : Except ε α) >>= f = Except.error e := rfl

/-- Collecting always-successful results succeeds with the mapped list. -/
theorem collectExcept_ok {ε α β : Type} (f : α → β) (l : List α) :
    collectExcept (fun a => (Except.ok (f a) : Except ε β)) l = Except.ok (l.map f) := by
  induction l with
  | nil => rfl
  | cons a t ih => simp only [collectExcept, ih, List.map_cons, ok_bind]

/-- Collecting results all of which succeed pointwise succeeds with the
mapped list. -/
theorem collectExcept_congr_ok {ε α β : Type} (f : α → Except ε β) (g : α → β) (l : List α)
    (h : ∀ a ∈ l, f a = Except.ok (g a)) :
    collectExcept f l = Except.ok (l.map g) := by
  induction l with
  | nil => rfl
  | cons a t ih =>
      have ha := h a (by simp)
      have ht := ih (fun x hx => h x (by simp [hx]))
      simp only [collectExcept, ha, ht, List.map_cons, ok_bind]

/-- Collection succeeds exactly when every element decodes successfully. -/
theorem collectExcept_isOk {ε α β : Type} (f : α → Except ε β) (l : List α) :
    (collectExcept f l).isOk = true ↔ ∀ a ∈ l, (f a).isOk = true := by
  induction l with
  | nil => simp [collectExcept, Except.isOk, Except.toBool]
  | cons a t ih =>
      cases hfa : f a with
      | error e =>
          refine iff_of_false ?_ ?_
          · simp [collectExcept, hfa, error_bind, Except.isOk, Except.toBool]
          · intro hall
            have h1 := hall a (by simp)
            rw [hfa] at h1
            simp [Except.isOk, Except.toBool] at h1
      | ok b =>
          cases hrec : collectExcept f t with
          | error e =>
              refine iff_of_false ?_ ?_
              · simp [collectExcept, hfa, hrec, ok_bind, error_bind, Except.isOk, Except.toBool]
              · intro hall
                have h2 := ih.mpr (fun x hx => hall x (by simp [hx]))
                rw [hrec] at h2
                simp [Except.isOk, Except.toBool] at h2
          | ok l2 =>
              refine iff_of_true ?_ ?_
              · simp [collectExcept, hfa, hrec, ok_bind, Except.isOk, Except.toBool]
              · intro x hx
                rcases List.mem_cons.mp hx with h1 | h1
                · rw [h1, hfa]; rfl
                · exact (ih.mp (by rw [hrec]; rfl)) x h1

/-- Reading the head is reading position zero. -/
theorem headD_eq_getD_zero {α : Type} (l : List α) (d : α) : l.headD d = l.getD 0 d := by
  cases l <;> rfl

/-- Reading the tail shifts the position by one. -/
theorem tail_getD {α : Type} (l : List α) (i : Nat) (d : α) :
    l.tail.getD i d = l.getD (i + 1) d := by
  cases l <;> rfl

/-- Reading every position of a list in order reproduces the list. -/
theorem range_getD_map {α : Type} (l : List α) (d : α) :
    (List.range l.length).map (fun i => l.getD i d) = l := by
  induction l with
  | nil => rfl
  | cons a t ih =>
      rw [List.length_cons, List.range_succ_eq_map, List.map_cons, List.map_map]
      simp only [Function.comp_def, List.getD_cons_succ, List.getD_cons_zero]
      rw [ih]

/-- The iterator cursor mechanics produce exactly the positional reads. -/
theorem materialize_eq (len : Nat) (idx : List Value) (cols : List (List Value)) :
    materialize len idx cols =
      (List.range len).map (fun i =>
        ⟨idx.getD i Value.Null, cols.map (fun c => c.getD i Value.Null)⟩) := by
  induction len generalizing idx cols with
  | zero => rfl
  | succ n ih =>
      rw [materialize, ih, List.range_succ_eq_map, List.map_cons, List.map_map]
      simp only [Function.comp_def, headD_eq_getD_zero, List.map_map, tail_getD,
        Nat.succ_eq_add_one, Nat.zero_add]

/-- Closed form of `from_rows` on a non-empty row list. -/
theorem from_rows_eq (r0 : Row) (rest : List Row) :
    DataFrame.from_rows (r0 :: rest) =
      .ok ⟨(List.range r0.data.length).map
             (fun j => ⟨colName j, (r0 :: rest).map (fun r => r.data.getD j Value.Null)⟩),
           ⟨"index", (r0 :: rest).map (fun r => r.index)⟩⟩ := by
  simp only [DataFrame.from_rows, Series.from_values, collectExcept_ok,
    Series.from_values_default_name, DataFrame.from_series, ok_bind]

/-! ## C1 — expression builder, finishing after a bare Conjunction -/

/-- Concrete leaf condition used in the C1 development. -/
def c1Cond : Condition := ⟨"name", Equation.Equal (Value.Str "foo")⟩

/-- C1 counterexample: starting from a bare condition and appending an AND
connective reaches a `ConjunctionState` on which `finish` (defined by both
`ExpressionTransit` impls for `ConjunctionState`, `sql_adt.rs` lines
376-378 and 388-390) IS available and returns an `Expressions` value that
ends on the dangling trailing connective — refuting the claim that no
such value can be produced through the builder API. -/
theorem c1_counterexample :
    (((ExpressionsBuilder.from_condition c1Cond).append Conjunction.AND).finish).exprs
      = [Expression.Simple c1Cond, Expression.Conjunction Conjunction.AND]
    ∧ lastIsConj
        ((((ExpressionsBuilder.from_condition c1Cond).append Conjunction.AND).finish).exprs)
      = true :=
  ⟨rfl, rfl⟩

/-- C1 (amended): after appending a bare Conjunction the builder is in
`ConjunctionState`, whose `finish` — also supplied by the
`ExpressionTransit` impls — returns the stack verbatim, so an
`Expressions` ending on a dangling connective IS producible; what the
type-state machine does guarantee is that every stack reachable in a leaf
state (`SimpleState`/`NestState`) never ends on a connective, hence
finishing from a leaf state never yields a dangling trailing Conjunction,
while every reachable `ConjunctionState` stack always does. -/
theorem builder_reach_finish_spec :
    ∀ (s : List Expression) (b : Bool), BuilderReach s b →
      (b = true → lastIsConj (SimpleState.finish ⟨s⟩).exprs = false)
      ∧ (b = false → lastIsConj (ConjunctionState.finish ⟨s⟩).exprs = true) := by
  intro s b h
  induction h with
  | start_cond c =>
      exact ⟨fun _ => rfl, fun hb => absurd hb (by simp)⟩
  | start_exprs e he =>
      exact ⟨fun _ => he, fun hb => absurd hb (by simp)⟩
  | conj_of_simple s c _ _ =>
      refine ⟨fun hb => absurd hb (by simp), fun _ => ?_⟩
      simp [SimpleState.append, ConjunctionState.finish, lastIsConj]
  | conj_of_nest s c _ _ =>
      refine ⟨fun hb => absurd hb (by simp), fun _ => ?_⟩
      simp [NestState.append, ConjunctionState.finish, lastIsConj]
  | cond_of_conj s c _ _ =>
      refine ⟨fun _ => ?_, fun hb => absurd hb (by simp)⟩
      simp [ConjunctionState.append_cond, SimpleState.finish, lastIsConj]
  | nest_of_conj s e _ _ =>
      refine ⟨fun _ => ?_, fun hb => absurd hb (by simp)⟩
      simp [ConjunctionState.append_nest, SimpleState.finish, lastIsConj]

/-- C1 witness: the amended theorem applied to the concrete reachable
builder stacks `[Simple c1Cond]` and `[Simple c1Cond, AND]`. -/
theorem builder_reach_finish_witness :
    lastIsConj (SimpleState.finish ⟨[Expression.Simple c1Cond]⟩).exprs = false
    ∧ lastIsConj (ConjunctionState.finish
        ⟨[Expression.Simple c1Cond, Expression.Conjunction Conjunction.AND]⟩).exprs = true :=
  ⟨(builder_reach_finish_spec _ true (BuilderReach.start_cond c1Cond)).1 rfl,
   (builder_reach_finish_spec _ false
      (BuilderReach.conj_of_simple _ Conjunction.AND (BuilderReach.start_cond c1Cond))).2 rfl⟩

/-! ## C10 — get_table_schema and unrecognized column types -/

/-- Test: is the scalar a String value? -/
def isStringValue : Value → Bool
  | .Str _ => true
  | _ => false

/-- Read the payload out of a String value (unused default otherwise). -/
def stringOfValue : Value → String
  | .Str s => s
  | _ => ""

/-- Decoding a single triple succeeds exactly when all three cells are
String values. -/
theorem decodeSchemaRow_isOk (parse : String → Option ValueType) (r : Value × Value × Value) :
    (decodeSchemaRow parse r).isOk = true ↔
      isStringValue r.1 = true ∧ isStringValue r.2.1 = true ∧ isStringValue r.2.2 = true := by
  obtain ⟨r0, r1, r2⟩ := r
  cases r0 <;> cases r1 <;> cases r2 <;>
    simp [decodeSchemaRow, try_value_into_string, ok_bind, error_bind, Except.isOk, Except.toBool, isStringValue]

/-- Closed form of decoding a single all-String triple. -/
theorem decodeSchemaRow_eq (parse : String → Option ValueType) (r : Value × Value × Value)
    (h : isStringValue r.1 = true ∧ isStringValue r.2.1 = true ∧ isStringValue r.2.2 = true) :
    decodeSchemaRow parse r =
      Except.ok ⟨stringOfValue r.1, (parse ((stringOfValue r.2.1).toUpper)).getD ValueType.Null,
                 stringOfValue r.2.2 == "YES"⟩ := by
  obtain ⟨r0, r1, r2⟩ := r
  obtain ⟨h0, h1, h2⟩ := h
  cases r0 <;> cases r1 <;> cases r2 <;> simp [isStringValue] at h0 h1 h2
  rfl

/-- C10: decoding the fetched `(column, type, nullable)` triples succeeds
exactly when every cell is a String value — an unrecognized type string is
never an error — and on success the dtype of each row is the parsed type
string, silently falling back to `Null` when `string_try_into_value_type`
does not recognize it. -/
theorem get_table_schema_spec :
    ∀ (parse : String → Option ValueType) (rows : List (Value × Value × Value)),
      ((SqlExecutor.get_table_schema parse rows).isOk = true ↔
        ∀ r ∈ rows, isStringValue r.1 = true ∧ isStringValue r.2.1 = true ∧ isStringValue r.2.2 = true)
      ∧ ((∀ r ∈ rows, isStringValue r.1 = true ∧ isStringValue r.2.1 = true ∧ isStringValue r.2.2 = true) →
          SqlExecutor.get_table_schema parse rows =
            .ok (rows.map (fun r =>
              ⟨stringOfValue r.1, (parse ((stringOfValue r.2.1).toUpper)).getD ValueType.Null,
               stringOfValue r.2.2 == "YES"⟩))) := by
  intro parse rows
  constructor
  · rw [SqlExecutor.get_table_schema, collectExcept_isOk]
    exact forall₂_congr (fun r _ => decodeSchemaRow_isOk parse r)
  · intro hall
    exact collectExcept_congr_ok _ _ rows (fun r hr => decodeSchemaRow_eq parse r (hall r hr))

/-- C10 witness: at a parser recognizing nothing, a triple with an
unrecognized type string decodes successfully to a `Null` dtype. -/
theorem get_table_schema_witness :
    (SqlExecutor.get_table_schema (fun _ => none)
        [(Value.Str "c", Value.Str "weird", Value.Str "YES")]).isOk = true
    ∧ SqlExecutor.get_table_schema (fun _ => none)
        [(Value.Str "c", Value.Str "weird", Value.Str "YES")] =
      .ok [⟨"c", ValueType.Null, true⟩] :=
  ⟨((get_table_schema_spec (fun _ => none)
      [(Value.Str "c", Value.Str "weird", Value.Str "YES")]).1).2 (by decide),
   by
    have := (get_table_schema_spec (fun _ => none)
      [(Value.Str "c", Value.Str "weird", Value.Str "YES")]).2 (by decide)
    simpa using this⟩

/-! ## C6 — bounds-checked random row access -/

/-- C6: `get_row_by_idx(i)` fails with OutOfBounds exactly when `i` is at
least the height; for a valid `i` it returns the row made of the i-th
value of the index column and the i-th value of every data column, in
column order. -/
theorem get_row_by_idx_spec :
    ∀ (df : DataFrame) (i : Nat),
      (df.height ≤ i → df.get_row_by_idx i = .error (oob_err i df.height))
      ∧ (i < df.height → df.get_row_by_idx i =
          .ok ⟨df.index.values.getD i Value.Null,
               df.data.map (fun s => s.values.getD i Value.Null)⟩) := by
  intro df i
  constructor
  · intro h
    simp [DataFrame.get_row_by_idx, h]
  · intro h
    have hlt : i < df.index.values.length := h
    simp [DataFrame.get_row_by_idx, Nat.not_le.mpr h, Series.get, hlt, Series.getValue,
      List.getD_eq_getElem _ _ hlt, ok_bind]

/-- Concrete two-row table used by the C6 witness. -/
def c6Df : DataFrame :=
  ⟨[⟨"names", [Value.Str "Jacob", Value.Str "Sam"]⟩, ⟨"val", [Value.U64 10, Value.Null]⟩],
   ⟨"ord", [Value.I32 1, Value.I32 2]⟩⟩

/-- C6 witness: the theorem evaluated on a concrete table at a valid and
at an out-of-bounds position. -/
theorem get_row_by_idx_witness :
    c6Df.get_row_by_idx 1 = .ok ⟨Value.I32 2, [Value.Str "Sam", Value.Null]⟩
    ∧ c6Df.get_row_by_idx 2 = .error (oob_err 2 2) :=
  ⟨(get_row_by_idx_spec c6Df 1).2 (by decide),
   (get_row_by_idx_spec c6Df 2).1 (by decide)⟩

/-! ## C8 — the index column built by from_rows -/

/-- C8 (amended): the index column of a table built by `from_rows` is
always the ordered sequence of the input rows' identity values; rows that
carry no identity contribute their `Null` identity verbatim — `from_rows`
performs no dense-sequential defaulting. -/
theorem from_rows_index_spec :
    ∀ (rows : List Row) (df : DataFrame),
      DataFrame.from_rows rows = .ok df → df.index.values = rows.map (fun r => r.index) := by
  intro rows df h
  cases rows with
  | nil => simp [DataFrame.from_rows] at h
  | cons r0 rest =>
      rw [from_rows_eq] at h
      injection h with h2
      rw [← h2]

/-- Rows lacking an identity, as built by `Row::from_values`. -/
def c8Rows : List Row := [Row.from_values [Value.I32 1], Row.from_values [Value.I32 2]]

/-- C8 counterexample: two rows carrying no identity produce a table whose
index column is the `Null` identities — not the dense sequential default
index the claim promises. -/
theorem from_rows_index_counterexample :
    (DataFrame.from_rows c8Rows).map (fun df => df.index.values)
      = .ok [Value.Null, Value.Null]
    ∧ [Value.Null, Value.Null] ≠ defaultIndexValues 2 :=
  ⟨rfl, by decide⟩

/-- C8 witness: the amended theorem applied to the concrete identity-free
rows. -/
theorem from_rows_index_witness :
    (DataFrame.mk [⟨"Column_0", [Value.I32 1, Value.I32 2]⟩]
        ⟨"index", [Value.Null, Value.Null]⟩).index.values
      = c8Rows.map (fun r => r.index) :=
  from_rows_index_spec c8Rows _ (by rfl)

/-! ## C9 — out-of-range explicit index column position -/

/-- Pairing each element with its position distributes over a range-map. -/
theorem enum_map_pair {β : Type} (n : Nat) (col : Nat → β) (F : Nat → β → Series) :
    ((List.range n).map col).enum.map (fun p => F p.1 p.2)
      = (List.range n).map (fun j => F j (col j)) := by
  apply List.ext_getElem
  · simp
  · intro j h1 h2
    simp [List.getElem_enum]

/-- C9: when the explicit `index_col` position is at least the observed
width, `from_row_values_iter` succeeds, removes no column — all observed
positions become data columns — and falls back to the store's default
sequential index (the equal-width hypothesis keeps the embedding aligned
with the source, which indexes every row at the first row's width). -/
theorem from_row_values_iter_oob_spec :
    ∀ (values : List (List Value)) (i : Nat),
      values ≠ [] →
      (∀ r ∈ values, r.length = (values.headD []).length) →
      (values.headD []).length ≤ i →
      DataFrame.from_row_values_iter values (some i) =
        DataFrame.from_series_default_index
          ((List.range (values.headD []).length).map
            (fun j => ⟨colName j, values.map (fun row => row.getD j Value.Null)⟩)) := by
  intro values i hne _hlen hi
  cases values with
  | nil => exact absurd rfl hne
  | cons v0 rest =>
      simp only [List.headD_cons] at hi ⊢
      simp only [DataFrame.from_row_values_iter, Option.bind_eq_bind, Option.some_bind,
        if_pos hi, Series.from_values, collectExcept_ok, ok_bind]
      exact congrArg DataFrame.from_series_default_index
        (enum_map_pair v0.length
          (fun j => (v0 :: rest).map (fun row => row.getD j Value.Null))
          (fun j v => ⟨colName j, v⟩))

/-- C9 witness: a one-row sequence of width two with `index_col = 2` keeps
both columns and gets the default sequential index. -/
theorem from_row_values_iter_witness :
    DataFrame.from_row_values_iter [[Value.I32 5, Value.Str "x"]] (some 2) =
      .ok ⟨[⟨"Column_0", [Value.I32 5]⟩, ⟨"Column_1", [Value.Str "x"]⟩],
           ⟨"index", [Value.U64 0]⟩⟩ := by
  have h := from_row_values_iter_oob_spec [[Value.I32 5, Value.Str "x"]] 2
    (by decide) (by decide) (by decide)
  exact h.trans (by rfl)

/-! ## C2 — row round trip through from_rows and the row iterator -/

/-- C2: for a non-empty equal-width row vector, building the table with
`from_rows` and re-materializing it row by row through the owning iterator
reproduces the input rows — same identity values, same data values, same
order. -/
theorem from_rows_roundtrip :
    ∀ (rows : List Row),
      rows ≠ [] →
      (∀ r ∈ rows, r.data.length = (rows.headD ⟨Value.Null, []⟩).data.length) →
      (DataFrame.from_rows rows).map DataFrame.toRows = .ok rows := by
  intro rows hne hlen
  cases rows with
  | nil => exact absurd rfl hne
  | cons r0 rest =>
      rw [from_rows_eq]
      simp only [List.headD_cons] at hlen
      refine congrArg Except.ok ?_
      simp only [DataFrame.toRows, DataFrame.height, materialize_eq, List.map_map]
      apply List.ext_getElem
      · simp
      · intro i h1 h2
        have hil : i < (r0 :: rest).length := by simpa using h2
        have hilm : i < ((r0 :: rest).map (fun r => r.index)).length := by simpa using hil
        simp only [List.getElem_map, List.getElem_range]
        have hidx : ((r0 :: rest).map (fun r => r.index)).getD i Value.Null
            = (r0 :: rest)[i].index := by
          rw [List.getD_eq_getElem _ _ hilm, List.getElem_map]
        have hdata : ∀ j : Nat,
            ((r0 :: rest).map (fun r => r.data.getD j Value.Null)).getD i Value.Null
              = (r0 :: rest)[i].data.getD j Value.Null := by
          intro j
          rw [List.getD_eq_getElem _ _ (by simpa using hil), List.getElem_map]
        simp only [Function.comp_def, hidx, hdata]
        have hn : (r0 :: rest)[i].data.length = r0.data.length :=
          hlen _ (List.getElem_mem hil)
        rw [← hn, range_getD_map]

/-- Concrete rows used by the C2 witness. -/
def c2Rows : List Row :=
  [⟨Value.I32 1, [Value.Str "a", Value.U64 7]⟩, ⟨Value.I32 2, [Value.Str "b", Value.Null]⟩]

/-- C2 witness: the round trip evaluated on two concrete rows. -/
theorem from_rows_roundtrip_witness :
    (DataFrame.from_rows c2Rows).map DataFrame.toRows = .ok c2Rows :=
  from_rows_roundtrip c2Rows (by decide) (by decide)

/-! ## C5 — rollback discipline of the transactional create-and-insert -/

/-- C5: inside `create_and_insert`, a failure of the CREATE statement
(the transaction's first statement) propagates with no rollback issued,
while a failure of the INSERT after a successful CREATE issues an explicit
rollback before the insert error propagates. -/
theorem create_and_insert_rollback_spec :
    ∀ (σ : Type) (exec : Stmt → σ → Except SqlError (σ × Nat)) (s0 : σ) (table : String)
      (data : DataFrame) (io : IndexOption) (e : SqlError),
      IndexOption.try_from data.index_field = .ok io →
      ((exec (Stmt.createTable table) s0 = .error e →
          create_and_insert exec s0 table data =
            (.error e, [TxnOp.exec (Stmt.createTable table)]))
       ∧ (∀ (s1 : σ) (n1 : Nat),
            exec (Stmt.createTable table) s0 = .ok (s1, n1) →
            exec (Stmt.insertData table (dfRows data)) s1 = .error e →
            create_and_insert exec s0 table data =
              (.error e, [TxnOp.exec (Stmt.createTable table),
                          TxnOp.exec (Stmt.insertData table (dfRows data)),
                          TxnOp.rollback]))) := by
  intro σ exec s0 table data io e hio
  constructor
  · intro hc
    simp [create_and_insert, hio, hc]
  · intro s1 n1 hc hins
    simp [create_and_insert, hio, hc, hins]

/-- One-row table with an integer index, used by the C5 and C4
witnesses. -/
def c5Data : DataFrame := ⟨[⟨"v", [Value.Str "a"]⟩], ⟨"id", [Value.I32 1]⟩⟩

/-- Statement executor that fails the CREATE statement. -/
def c5ExecFailCreate : Stmt → Unit → Except SqlError (Unit × Nat) := fun s _ =>
  match s with
  | .createTable _ => .error (SqlError.common "boom")
  | _ => .ok ((), 1)

/-- Statement executor that fails the INSERT statement only. -/
def c5ExecFailInsert : Stmt → Unit → Except SqlError (Unit × Nat) := fun s _ =>
  match s with
  | .insertData _ _ => .error (SqlError.common "boom2")
  | _ => .ok ((), 0)

/-- C5 witness: the rollback discipline evaluated on two concrete failure
injections. -/
theorem create_and_insert_rollback_witness :
    create_and_insert c5ExecFailCreate () "t" c5Data
        = (.error (SqlError.common "boom"), [TxnOp.exec (Stmt.createTable "t")])
    ∧ create_and_insert c5ExecFailInsert () "t" c5Data
        = (.error (SqlError.common "boom2"),
           [TxnOp.exec (Stmt.createTable "t"),
            TxnOp.exec (Stmt.insertData "t" (dfRows c5Data)), TxnOp.rollback]) :=
  ⟨(create_and_insert_rollback_spec Unit c5ExecFailCreate () "t" c5Data
      ⟨"id", IndexType.Int⟩ (SqlError.common "boom") (by rfl)).1 (by rfl),
   (create_and_insert_rollback_spec Unit c5ExecFailInsert () "t" c5Data
      ⟨"id", IndexType.Int⟩ (SqlError.common "boom2") (by rfl)).2 () 0 (by rfl) (by rfl)⟩

/-! ## C4 — FailIfExists saves -/

/-- Existence on a cons cell splits on the head name. -/
theorem tableExists_cons (k : String) (v : List (Value × List Value)) (db : DB) (t : String) :
    tableExists ((k, v) :: db) t = ((t == k) || tableExists db t) := by
  simp only [tableExists, List.lookup]
  cases htk : (t == k) <;> simp

/-- A table name absent from the database differs from every stored name. -/
theorem tableExists_false_forall (db : DB) (t : String) (h : tableExists db t = false) :
    ∀ p ∈ db, p.1 ≠ t := by
  induction db with
  | nil => intro p hp; simp at hp
  | cons q db ih =>
      obtain ⟨k, v⟩ := q
      rw [tableExists_cons] at h
      simp only [Bool.or_eq_false_iff, beq_eq_false_iff_ne] at h
      intro p hp
      rcases List.mem_cons.mp hp with hq | hq
      · rw [hq]
        exact fun hkt => h.1 hkt.symm
      · exact ih h.2 p hq

/-- Looking up a freshly appended table finds it when the name was
absent. -/
theorem lookup_append_self (db : DB) (t : String) (tbl : List (Value × List Value))
    (h : tableExists db t = false) :
    List.lookup t (db ++ [(t, tbl)]) = some tbl := by
  induction db with
  | nil => simp [List.lookup]
  | cons q db ih =>
      obtain ⟨k, v⟩ := q
      rw [tableExists_cons] at h
      simp only [Bool.or_eq_false_iff] at h
      simp only [List.cons_append, List.lookup, h.1]
      exact ih h.2

/-- Inserting into a freshly created table appends exactly its rows. -/
theorem insertInto_append_self (db : DB) (t : String) (rows : List (Value × List Value))
    (h : tableExists db t = false) :
    DB.insertInto (db ++ [(t, [])]) t rows = db ++ [(t, rows)] := by
  have hne := tableExists_false_forall db t h
  simp only [DB.insertInto, List.map_append]
  rw [List.map_congr_left (fun p hp => if_neg (hne p hp))]
  simp

/-- C4: saving with FailIfExists into an existing table name fails with
the table-exists error right after the probe — no transaction is begun
and no mutating statement is executed, so the stored table is untouched;
into a fresh name it probes, begins the transaction, creates the table,
inserts every row and commits, reporting the inserted row count. -/
theorem save_fail_if_exists_spec :
    ∀ (db : DB) (table : String) (data : DataFrame),
      (tableExists db table = true →
        SqlExecutor.save db table data .FailIfExists =
          (.error (SqlError.new_common_error "table already exist, table cannot be saved"),
           [SaveOp.probe table]))
      ∧ (∀ io : IndexOption, tableExists db table = false →
          IndexOption.try_from data.index_field = .ok io →
          SqlExecutor.save db table data .FailIfExists =
            (.ok (db ++ [(table, dfRows data)], (dfRows data).length),
             [SaveOp.probe table, SaveOp.beginTxn,
              SaveOp.txn (TxnOp.exec (Stmt.createTable table)),
              SaveOp.txn (TxnOp.exec (Stmt.insertData table (dfRows data))),
              SaveOp.txn TxnOp.commit])) := by
  intro db table data
  constructor
  · intro h
    simp [SqlExecutor.save, h]
  · intro io hne hio
    have hc : dbExec (Stmt.createTable table) db = .ok (db ++ [(table, [])], 0) := by
      simp [dbExec, hne]
    have hexists2 : tableExists (db ++ [(table, [])]) table = true := by
      simp [tableExists, lookup_append_self db table [] hne]
    have hins : dbExec (Stmt.insertData table (dfRows data)) (db ++ [(table, [])])
        = .ok (db ++ [(table, dfRows data)], (dfRows data).length) := by
      simp [dbExec, hexists2, insertInto_append_self db table (dfRows data) hne]
    simp [SqlExecutor.save, hne, create_and_insert, hio, hc, hins]

/-- Database holding exactly the target table name, for the C4 witness. -/
def c4DbExists : DB := [("t", [])]

/-- C4 witness: both branches of the theorem evaluated on concrete
databases. -/
theorem save_fail_if_exists_witness :
    SqlExecutor.save c4DbExists "t" c5Data .FailIfExists
        = (.error (SqlError.new_common_error "table already exist, table cannot be saved"),
           [SaveOp.probe "t"])
    ∧ SqlExecutor.save [] "t" c5Data .FailIfExists
        = (.ok ([("t", dfRows c5Data)], (dfRows c5Data).length),
           [SaveOp.probe "t", SaveOp.beginTxn,
            SaveOp.txn (TxnOp.exec (Stmt.createTable "t")),
            SaveOp.txn (TxnOp.exec (Stmt.insertData "t" (dfRows c5Data))),
            SaveOp.txn TxnOp.commit]) :=
  ⟨(save_fail_if_exists_spec c4DbExists "t" c5Data).1 (by decide),
   (save_fail_if_exists_spec [] "t" c5Data).2 ⟨"id", IndexType.Int⟩ (by decide) (by rfl)⟩

/-! ## C3 — upsert partitioning -/

/-- Existing table with identities 10, 11, 12. -/
def c3Db : DB :=
  [("t", [(Value.I32 10, [Value.Str "a"]), (Value.I32 11, [Value.Str "b"]),
          (Value.I32 12, [Value.Str "c"])])]

/-- Incoming data with identities 11 and 13. -/
def c3Data : DataFrame :=
  ⟨[⟨"val", [Value.Str "B", Value.Str "D"]⟩], ⟨"ord", [Value.I32 11, Value.I32 13]⟩⟩

/-- Database after inserting the new row 13. -/
def c3DbMid : DB :=
  [("t", [(Value.I32 10, [Value.Str "a"]), (Value.I32 11, [Value.Str "b"]),
          (Value.I32 12, [Value.Str "c"]), (Value.I32 13, [Value.Str "D"])])]

/-- Database after the upsert: row 13 inserted, row 11 updated. -/
def c3DbAfter : DB :=
  [("t", [(Value.I32 10, [Value.Str "a"]), (Value.I32 11, [Value.Str "B"]),
          (Value.I32 12, [Value.Str "c"]), (Value.I32 13, [Value.Str "D"])])]

/-- C3: the Upsert save partitions the input against the fetched existing
identities — `popup_rows` extracts exactly the rows whose identity is in
the fetched set into the update partition and keeps the rest for the
insert partition — sends the partitions to insert and update respectively
and returns the summed affected counts; on the concrete scenario with
existing identities 10, 11, 12 and input identities 11, 13, exactly the
row with identity 13 is inserted, exactly the row with identity 11 is
updated, and the total count is 2. -/
theorem save_upsert_spec :
    (∀ (df : DataFrame) (ids : List Value),
        (df.popup_rows ids).2.index.values = df.index.values.filter (fun v => ids.contains v)
        ∧ (df.popup_rows ids).1.index.values
            = df.index.values.filter (fun v => !(ids.contains v)))
    ∧ (∀ (db : DB) (table : String) (data : DataFrame) (ids : List Value)
          (db1 db2 : DB) (r1 r2 : Nat),
        SqlExecutor.get_existing_ids db table data.index = .ok ids →
        SqlExecutor.insert db table (data.popup_rows ids).1 = .ok (db1, r1) →
        SqlExecutor.update db1 table (data.popup_rows ids).2 = .ok (db2, r2) →
        (SqlExecutor.save db table data .Upsert).1 = .ok (db2, r1 + r2))
    ∧ (SqlExecutor.save c3Db "t" c3Data .Upsert).1 = .ok (c3DbAfter, 2) := by
  refine ⟨fun df ids => ⟨rfl, rfl⟩, ?_, by rfl⟩
  intro db table data ids db1 db2 r1 r2 hids hins hupd
  simp only [SqlExecutor.insert] at hins
  cases hio : IndexOption.try_from (data.popup_rows ids).2.index_field with
  | error e =>
      rw [SqlExecutor.update, hio, error_bind] at hupd
      exact absurd hupd (by simp)
  | ok io =>
      rw [SqlExecutor.update, hio, ok_bind] at hupd
      simp only [SqlExecutor.save, hids, hins, hio, hupd]

/-- C3 witness: the partition-and-sum branch applied to the concrete
upsert scenario. -/
theorem save_upsert_witness :
    (SqlExecutor.save c3Db "t" c3Data SaveStrategy.Upsert).1 = .ok (c3DbAfter, 1 + 1) :=
  save_upsert_spec.2.1 c3Db "t" c3Data [Value.I32 11] c3DbMid c3DbAfter 1 1
    (by rfl) (by rfl) (by rfl)

/-! ## C7 — splice-based row insertion -/

/-- Reading a dropped list shifts the position. -/
theorem getD_drop {α : Type} (c : List α) (k j : Nat) (d : α) :
    (c.drop k).getD j d = c.getD (k + j) d := by
  induction k generalizing c with
  | zero => simp
  | succ n ih =>
      cases c with
      | nil => simp
      | cons a c =>
          simp only [List.drop_succ_cons, ih, Nat.succ_add, List.getD_cons_succ]

/-- Reading a taken prefix inside its bound reads the original list. -/
theorem getD_take {α : Type} (c : List α) (k i : Nat) (d : α) (h : i < k) :
    (c.take k).getD i d = c.getD i d := by
  induction c generalizing k i with
  | nil => simp
  | cons a c ih =>
      cases k with
      | zero => exact absurd h (by omega)
      | succ n =>
          cases i with
          | zero => rfl
          | succ m =>
              simp only [List.take_succ_cons, List.getD_cons_succ]
              exact ih n m (by omega)

/-- Positional reads of a three-way splice `take k ++ v :: drop k`. -/
theorem splice_getD {α : Type} (c : List α) (v d : α) (k i : Nat) (hk : k ≤ c.length) :
    (c.take k ++ v :: c.drop k).getD i d =
      if i < k then c.getD i d else if i = k then v else c.getD (i - 1) d := by
  have htl : (c.take k).length = k := by simp [hk]
  by_cases h1 : i < k
  · rw [if_pos h1, List.getD_append _ _ _ _ (by omega), getD_take _ _ _ _ h1]
  · rw [if_neg h1, List.getD_append_right _ _ _ _ (by omega), htl]
    by_cases h2 : i = k
    · rw [if_pos h2, h2, Nat.sub_self, List.getD_cons_zero]
    · rw [if_neg h2]
      have h3 : i - k = (i - k - 1) + 1 := by omega
      rw [h3, List.getD_cons_succ, getD_drop,
        show k + (i - k - 1) = i - 1 from by omega]

/-- Positional reads of a range-map. -/
theorem getD_range_map {β : Type} (n i : Nat) (F : Nat → β) (d : β) (h : i < n) :
    ((List.range n).map F).getD i d = F i := by
  rw [List.getD_eq_getElem _ _ (by simpa using h)]
  simp

/-- List extensionality through defaulted positional reads. -/
theorem ext_getD {α : Type} (d : α) (l1 l2 : List α) (hlen : l1.length = l2.length)
    (h : ∀ i < l1.length, l1.getD i d = l2.getD i d) : l1 = l2 := by
  apply List.ext_getElem hlen
  intro i h1 h2
  have h3 := h i h1
  rwa [List.getD_eq_getElem _ _ h1, List.getD_eq_getElem _ _ h2] at h3

/-- Consuming a range through defaulted reads of a parallel list is the
pointwise zip. -/
theorem zipWith_range_getD {α β γ : Type} (l : List α) (l2 : List β) (G : α → β → γ) (d : α)
    (_h : l2.length ≤ l.length) :
    List.zipWith (fun j b => G (l.getD j d) b) (List.range l.length) l2
      = List.zipWith G l l2 := by
  apply List.ext_getElem
  · simp
  · intro i h1 h2
    have hi : i < l.length := by
      simp at h2
      omega
    simp only [List.getElem_zipWith, List.getElem_range]
    rw [List.getD_eq_getElem _ _ hi]

/-- Column names survive a value-reshaping zip keyed on the second list. -/
theorem map_name_zipWith_right {α : Type} (l1 : List α) (l2 : List Series)
    (F : α → Series → List Value) (h : l2.length ≤ l1.length) :
    (List.zipWith (fun v s => Series.mk s.name (F v s)) l1 l2).map (fun s => s.name)
      = l2.map (fun s => s.name) := by
  apply List.ext_getElem
  · simp
    exact h
  · intro i h1 h2
    simp [List.getElem_zipWith]

/-- Column names survive a value-reshaping zip keyed on the first list. -/
theorem map_name_zipWith_left (l1 l2 : List Series)
    (F : Series → Series → List Value) (h : l1.length ≤ l2.length) :
    (List.zipWith (fun a b => Series.mk a.name (F a b)) l1 l2).map (fun s => s.name)
      = l1.map (fun s => s.name) := by
  apply List.ext_getElem
  · simp
    exact h
  · intro i h1 h2
    simp [List.getElem_zipWith]

/-- Slicing preserves the column names. -/
theorem slice_get_column_names (df : DataFrame) (a b : Nat) :
    (df.slice a b).get_column_names = df.data.map (fun s => s.name) := by
  simp [DataFrame.slice, DataFrame.get_column_names, List.map_map]

/-- Successful branch of `get_row_by_idx`, shared by the access and
insertion developments. -/
theorem get_row_by_idx_ok (df : DataFrame) (i : Nat) (h : i < df.height) :
    df.get_row_by_idx i =
      .ok ⟨df.index.values.getD i Value.Null,
           df.data.map (fun s => s.values.getD i Value.Null)⟩ := by
  have hlt : i < df.index.values.length := h
  simp [DataFrame.get_row_by_idx, Nat.not_le.mpr h, Series.get, hlt, Series.getValue,
    List.getD_eq_getElem _ _ hlt, ok_bind]

/-- The owning row iterator reads each position of the index and of every
column. -/
theorem toRows_eq (df : DataFrame) :
    df.toRows = (List.range df.height).map (fun i =>
      ⟨df.index.values.getD i Value.Null,
       df.data.map (fun s => s.values.getD i Value.Null)⟩) := by
  simp only [DataFrame.toRows, materialize_eq, List.map_map]
  rfl

/-- Defaulted reads of the spliced columns, split on the position. -/
theorem spliced_cols_getD (df : DataFrame) (row : Row) (k i : Nat)
    (hw : row.data.length = df.data.length) (hinv : df.ColsMatchHeight) (hk : k ≤ df.height) :
    (List.zipWith (fun s v => Series.mk s.name (s.values.take k ++ v :: s.values.drop k))
        df.data row.data).map (fun s => s.values.getD i Value.Null)
      = if i < k then df.data.map (fun s => s.values.getD i Value.Null)
        else if i = k then row.data
        else df.data.map (fun s => s.values.getD (i - 1) Value.Null) := by
  have key : ∀ j (hj1 : j < df.data.length) (hj2 : j < row.data.length),
      (df.data[j].values.take k ++ row.data[j] :: df.data[j].values.drop k).getD i Value.Null
        = if i < k then df.data[j].values.getD i Value.Null
          else if i = k then row.data[j]
          else df.data[j].values.getD (i - 1) Value.Null := by
    intro j hj1 hj2
    have hcl : df.data[j].values.length = df.height := hinv _ (List.getElem_mem hj1)
    exact splice_getD _ _ _ _ _ (by omega)
  split_ifs with h1 h2
  · apply List.ext_getElem
    · simp [hw]
    · intro j hj1 hj2
      have hjd : j < df.data.length := by
        simp at hj1
        omega
      have hjr : j < row.data.length := by
        simp at hj1
        omega
      simp only [List.getElem_map, List.getElem_zipWith]
      rw [key j hjd hjr, if_pos h1]
  · apply List.ext_getElem
    · simp [hw]
    · intro j hj1 hj2
      have hjd : j < df.data.length := by
        simp at hj1
        omega
      have hjr : j < row.data.length := by
        simp at hj1
        omega
      simp only [List.getElem_map, List.getElem_zipWith]
      rw [key j hjd hjr, if_neg h1, if_pos h2]
  · apply List.ext_getElem
    · simp [hw]
    · intro j hj1 hj2
      have hjd : j < df.data.length := by
        simp at hj1
        omega
      have hjr : j < row.data.length := by
        simp at hj1
        omega
      simp only [List.getElem_map, List.getElem_zipWith]
      rw [key j hjd hjr, if_neg h1, if_neg h2]

/-- Characterization of `insert_row_by_idx` under the height invariant:
it succeeds and splices the row at position `k` into every column and into
the index. -/
theorem insert_row_by_idx_eq (df : DataFrame) (k : Nat) (row : Row)
    (hk : k ≤ df.height) (hw : row.data.length = df.data.length)
    (hinv : df.ColsMatchHeight) :
    df.insert_row_by_idx k row =
      .ok ⟨List.zipWith (fun s v => Series.mk s.name (s.values.take k ++ v :: s.values.drop k))
             df.data row.data,
           ⟨df.index.name, df.index.values.take k ++ row.index :: df.index.values.drop k⟩⟩ := by
  have hA : DataFrame.from_rows [row]
      = .ok ⟨(List.range row.data.length).map
               (fun j => ⟨colName j, [row.data.getD j Value.Null]⟩),
             ⟨"index", [row.index]⟩⟩ := by
    simpa using from_rows_eq row []
  have hB : (DataFrame.mk ((List.range row.data.length).map
               (fun j => ⟨colName j, [row.data.getD j Value.Null]⟩))
             ⟨"index", [row.index]⟩).set_column_names (df.slice 0 k).get_column_names
      = .ok ⟨List.zipWith (fun v s => Series.mk s.name [v]) row.data df.data,
             ⟨"index", [row.index]⟩⟩ := by
    have hcond : ((df.slice 0 k).get_column_names).length
        = ((List.range row.data.length).map
            (fun j => (⟨colName j, [row.data.getD j Value.Null]⟩ : Series))).length := by
      simp [slice_get_column_names, hw]
    rw [DataFrame.set_column_names, if_pos hcond]
    refine congrArg Except.ok (congrArg (fun d => DataFrame.mk d ⟨"index", [row.index]⟩) ?_)
    rw [slice_get_column_names, List.zipWith_map]
    exact zipWith_range_getD row.data df.data (fun v s => Series.mk s.name [v]) Value.Null
      (le_of_eq hw.symm)
  have hC : (df.slice 0 k).vconcat
        ⟨List.zipWith (fun v s => Series.mk s.name [v]) row.data df.data,
         ⟨"index", [row.index]⟩⟩
      = .ok ⟨List.zipWith (fun a b => Series.mk a.name (a.values ++ b.values))
               (df.slice 0 k).data
               (List.zipWith (fun v s => Series.mk s.name [v]) row.data df.data),
             ⟨df.index.name, df.index.values.take k ++ [row.index]⟩⟩ := by
    have hname : (df.slice 0 k).get_column_names
        = (DataFrame.mk (List.zipWith (fun v s => Series.mk s.name [v]) row.data df.data)
            ⟨"index", [row.index]⟩).get_column_names := by
      rw [slice_get_column_names, DataFrame.get_column_names]
      exact (map_name_zipWith_right row.data df.data (fun v _s => [v])
        (le_of_eq hw.symm)).symm
    rw [DataFrame.vconcat, if_pos hname]
    refine congrArg Except.ok (congrArg (DataFrame.mk _) ?_)
    simp [DataFrame.slice]
  have hD : (DataFrame.mk
        (List.zipWith (fun a b => Series.mk a.name (a.values ++ b.values))
          (df.slice 0 k).data
          (List.zipWith (fun v s => Series.mk s.name [v]) row.data df.data))
        ⟨df.index.name, df.index.values.take k ++ [row.index]⟩).vconcat
        (df.slice k df.height)
      = .ok ⟨List.zipWith
               (fun s v => Series.mk s.name (s.values.take k ++ v :: s.values.drop k))
               df.data row.data,
             ⟨df.index.name,
              df.index.values.take k ++ row.index :: df.index.values.drop k⟩⟩ := by
    have hname : (DataFrame.mk
          (List.zipWith (fun a b => Series.mk a.name (a.values ++ b.values))
            (df.slice 0 k).data
            (List.zipWith (fun v s => Series.mk s.name [v]) row.data df.data))
          ⟨df.index.name, df.index.values.take k ++ [row.index]⟩).get_column_names
        = (df.slice k df.height).get_column_names := by
      rw [slice_get_column_names, DataFrame.get_column_names]
      rw [map_name_zipWith_left _ _ (fun a b => a.values ++ b.values)
        (by simp [DataFrame.slice, hw])]
      exact slice_get_column_names df 0 k
    rw [DataFrame.vconcat, if_pos hname]
    refine congrArg Except.ok ?_
    refine congrArg₂ DataFrame.mk ?_ ?_
    · apply List.ext_getElem
      · simp [DataFrame.slice, hw]
      · intro j hj1 hj2
        have hjd : j < df.data.length := by
          simp at hj2
          omega
        have hjr : j < row.data.length := by
          simp at hj2
          omega
        have hcl : df.data[j].values.length = df.height := hinv _ (List.getElem_mem hjd)
        simp only [List.getElem_zipWith, List.getElem_map, DataFrame.slice]
        have htk : ((df.data[j]).values.drop k).length ≤ df.height := by
          rw [List.length_drop, hcl]
          omega
        rw [List.take_of_length_le htk]
        simp
    · refine congrArg (Series.mk df.index.name) ?_
      simp only [DataFrame.slice]
      have htk : (df.index.values.drop k).length ≤ df.height := by
        rw [List.length_drop]
        exact Nat.sub_le _ _
      rw [List.take_of_length_le htk]
      simp
  simp only [DataFrame.insert_row_by_idx, DataFrame.append, hA, ok_bind, hB, hC, hD]

/-- C7: for `k ≤ height`, a width-matching row and a height-consistent
table, `insert_row_by_idx(k, row)` succeeds, grows the height by exactly
one, reads the inserted row back at position `k`, and the produced row
sequence is the original rows before `k`, the new row, then the original
rows from `k` on — relative order preserved. -/
theorem insert_row_by_idx_spec :
    ∀ (df : DataFrame) (k : Nat) (row : Row),
      k ≤ df.height → row.data.length = df.data.length → df.ColsMatchHeight →
      ∃ df', df.insert_row_by_idx k row = .ok df'
        ∧ df'.height = df.height + 1
        ∧ df'.get_row_by_idx k = .ok row
        ∧ df'.toRows = df.toRows.take k ++ row :: df.toRows.drop k := by
  intro df k row hk hw hinv
  refine ⟨_, insert_row_by_idx_eq df k row hk hw hinv, ?_, ?_, ?_⟩
  · simp [DataFrame.height]
    omega
  · have hb : k < (DataFrame.mk
        (List.zipWith (fun s v => Series.mk s.name (s.values.take k ++ v :: s.values.drop k))
          df.data row.data)
        ⟨df.index.name,
         df.index.values.take k ++ row.index :: df.index.values.drop k⟩).height := by
      have hk2 : k ≤ df.index.values.length := hk
      simp [DataFrame.height]
      omega
    rw [get_row_by_idx_ok _ k hb]
    have hidx : (df.index.values.take k ++ row.index :: df.index.values.drop k).getD k
        Value.Null = row.index := by
      rw [splice_getD _ _ _ _ _ hk]
      simp
    have hdata := spliced_cols_getD df row k k hw hinv hk
    rw [if_neg (by omega), if_pos rfl] at hdata
    exact congrArg Except.ok (congrArg₂ Row.mk hidx hdata)
  · rw [toRows_eq, toRows_eq]
    have hh : (DataFrame.mk
        (List.zipWith (fun s v => Series.mk s.name (s.values.take k ++ v :: s.values.drop k))
          df.data row.data)
        ⟨df.index.name,
         df.index.values.take k ++ row.index :: df.index.values.drop k⟩).height
        = df.height + 1 := by
      simp [DataFrame.height]
      omega
    rw [hh]
    apply ext_getD ⟨Value.Null, []⟩
    · simp
      omega
    · intro i hi
      have hi1 : i < df.height + 1 := by simpa using hi
      rw [getD_range_map _ _ _ _ hi1]
      have hsplice := splice_getD ((List.range df.height).map (fun i =>
          (⟨df.index.values.getD i Value.Null,
            df.data.map (fun s => s.values.getD i Value.Null)⟩ : Row)))
        row ⟨Value.Null, []⟩ k i (by simp [hk])
      rw [hsplice]
      have hidx := splice_getD df.index.values row.index Value.Null k i hk
      have hdata := spliced_cols_getD df row k i hw hinv hk
      rcases Nat.lt_trichotomy i k with h1 | h1 | h1
      · rw [if_pos h1]
        rw [getD_range_map _ _ _ _ (by omega)]
        rw [if_pos h1] at hidx hdata
        exact congrArg₂ Row.mk hidx hdata
      · rw [if_neg (by omega), if_pos h1]
        rw [if_neg (by omega), if_pos h1] at hidx hdata
        exact congrArg₂ Row.mk hidx hdata
      · rw [if_neg (by omega), if_neg (by omega)]
        rw [getD_range_map _ _ _ _ (by omega)]
        rw [if_neg (by omega), if_neg (by omega)] at hidx hdata
        exact congrArg₂ Row.mk hidx hdata

/-- Concrete three-row table for the C7 witness. -/
def c7Df : DataFrame :=
  ⟨[⟨"names", [Value.Str "a", Value.Str "b", Value.Str "c"]⟩],
   ⟨"ord", [Value.I32 1, Value.I32 2, Value.I32 3]⟩⟩

/-- C7 witness: inserting a concrete row at position 1. -/
theorem insert_row_by_idx_witness :
    ∃ df', c7Df.insert_row_by_idx 1 ⟨Value.I32 9, [Value.Str "x"]⟩ = .ok df'
      ∧ df'.height = c7Df.height + 1
      ∧ df'.get_row_by_idx 1 = .ok ⟨Value.I32 9, [Value.Str "x"]⟩
      ∧ df'.toRows = c7Df.toRows.take 1 ++ ⟨Value.I32 9, [Value.Str "x"]⟩ :: c7Df.toRows.drop 1 :=
  insert_row_by_idx_spec c7Df 1 ⟨Value.I32 9, [Value.Str "x"]⟩ (by decide) (by decide)
    (by
      intro s hs
      simp only [c7Df, List.mem_singleton] at hs
      rw [hs]
      rfl)

end Fabrix
